import Mathlib

/-!
Verification of the multi-tenant server core of zyx-base.

The definitions below are a shallow embedding of src/lib/baseServer.js
(class BaseServer): tenant-directory construction (initTenants), hostname
resolution, the response-locals seeding, the service registration protocol
(service / doCreate), the teardown stack and close pass, the signal-driven
shutdown, the router mounting (router), and the per-tenant request metrics.
JavaScript Map and plain-object key/value stores are embedded as ordered
association lists with update-in-place-or-append semantics. The JavaScript
string primitives used by the code (toLowerCase, trim, split(","),
startsWith) are embedded as structurally recursive functions on the
character list of a string, so that every definition evaluates inside the
kernel.
-/

deriving instance DecidableEq for Except

namespace ZyxBase

/-! ## JavaScript string primitives -/

/-- ASCII lowercasing of one character, as toLowerCase acts on the
character sets appearing in the code and configs. -/
def jsLowerChar (c : Char) : Char :=
  if 65 ≤ c.toNat ∧ c.toNat ≤ 90 then Char.ofNat (c.toNat + 32) else c

/-- JS String.prototype.toLowerCase. -/
def jsToLower (s : String) : String :=
  ⟨s.data.map jsLowerChar⟩

/-- JS String.prototype.trim: drop whitespace from both ends. -/
def jsTrim (s : String) : String :=
  ⟨((s.data.dropWhile Char.isWhitespace).reverse.dropWhile Char.isWhitespace).reverse⟩

/-- Split a character list at every occurrence of `sep`. -/
def splitChars (sep : Char) : List Char → List (List Char)
  | [] => [[]]
  | c :: rest =>
    if c = sep then
      [] :: splitChars sep rest
    else
      match splitChars sep rest with
      | [] => [[c]]
      | g :: gs => (c :: g) :: gs

/-- JS String.prototype.split(","). -/
def jsSplitComma (s : String) : List String :=
  (splitChars ',' s.data).map (fun l => ⟨l⟩)

/-- Character-list version of JS String.prototype.startsWith. -/
def leadsWith : List Char → List Char → Bool
  | [], _ => true
  | _ :: _, [] => false
  | a :: as, b :: bs => a == b && leadsWith as bs

/-- JS s.startsWith(p). -/
def jsStartsWith (s p : String) : Bool :=
  leadsWith p.data s.data

/-! ## Maps and objects -/

/-- JS Map.get / object property read: first binding for the key, if any. -/
def mapGet {α : Type} : List (String × α) → String → Option α
  | [], _ => none
  | p :: rest, k => if p.1 = k then some p.2 else mapGet rest k

/-- JS Map.set / object property write: replace the existing binding in
place, keeping insertion order, or append a new binding at the end. -/
def mapSet {α : Type} : List (String × α) → String → α → List (String × α)
  | [], k, v => [(k, v)]
  | p :: rest, k, v => if p.1 = k then (p.1, v) :: rest else p :: mapSet rest k v

/-! ## Tenant directory (baseServer.js, initTenants) -/

/-- One tenant configuration object. The `domain` field is the raw
comma-separated hostname list; `entries` is the Object.entries view of the
config object used when seeding res.locals. -/
structure TenantConfig where
  id : Nat
  node : Nat
  domain : String
  entries : List (String × String)
deriving DecidableEq

/-- A built tenant, as produced by initTenants. `idx` is the position of
its config in the tenantConfigs array and stands for JS object identity. -/
structure Tenant where
  idx : Nat
  id : Nat
  node : Nat
  domains : List String
  config : TenantConfig
deriving DecidableEq

/-- `config.domain.split(",").map(d => d.toLowerCase().trim()).filter(Boolean)` -/
def parseDomains (domain : String) : List String :=
  ((jsSplitComma domain).map (fun d => jsTrim (jsToLower d))).filter (fun d => d != "")

/-- The tenant list built by initTenants from the tenantConfigs array. -/
def initTenantList (configs : List TenantConfig) : List Tenant :=
  configs.enum.map (fun p =>
    { idx := p.1
      id := p.2.id
      node := p.2.node
      domains := parseDomains p.2.domain
      config := p.2 })

/-- The domainTenantMap: for each tenant in order, for each of its domains,
`map.set(domain, tenant)`. -/
def buildDomainMap (tenants : List Tenant) : List (String × Tenant) :=
  tenants.foldl (fun m t => t.domains.foldl (fun m2 d => mapSet m2 d t) m) []

/-- Request-time tenant resolution:
`this.#domainTenantMap.get(req.hostname.toLowerCase().trim())`. -/
def resolve (m : List (String × Tenant)) (hostname : String) : Option Tenant :=
  mapGet m (jsTrim (jsToLower hostname))

/-- The last tenant in the list that declares domain `d` (later tenants
overwrite earlier bindings in the Map built by initTenants). -/
def lastDeclaring (d : String) : List Tenant → Option Tenant
  | [] => none
  | t :: rest =>
    match lastDeclaring d rest with
    | some u => some u
    | none => if d ∈ t.domains then some t else none

/-! ## Response locals (initTenants request middleware)

`res.locals = {}; for ([key, value] of Object.entries(tenant.config))
 if (key.startsWith("site_")) res.locals[key] = value;` -/

def buildLocals (entries : List (String × String)) : List (String × String) :=
  entries.foldl
    (fun acc kv => if jsStartsWith kv.1 "site_" then mapSet acc kv.1 kv.2 else acc) []

/-! ## Router mounting (baseServer.js, router) -/

/-- One route triple yielded by routerInstance.getRoutes(); handlers are
abstract and identified by a number. -/
structure Route where
  method : String
  path : String
  handler : Nat
deriving DecidableEq

/-- Models the express dependency: the lowercase property names m for which
`typeof expressRouter[m] === "function"` holds on an express.Router() —
Node http.METHODS lowercased, the router methods all / use / param /
route / handle, and the function-object members apply / call /
constructor. -/
def expressRouterMethods : List String :=
  ["acl", "bind", "checkout", "connect", "copy", "delete", "get", "head",
   "link", "lock", "m-search", "merge", "mkactivity", "mkcalendar", "mkcol",
   "move", "notify", "options", "patch", "post", "propfind", "proppatch",
   "purge", "put", "rebind", "report", "search", "source", "subscribe",
   "trace", "unbind", "unlink", "unlock", "unsubscribe",
   "all", "use", "param", "route", "handle", "apply", "call", "constructor"]

/-- The loop of BaseServer.router over getRoutes(): for each triple, throw
on a method the express router has no function for, otherwise push
`{ method, path: leadPath + path, handler }` onto the flat this.#routes
table. Returns the updated table or the thrown error. -/
def mountRoutes (leadPath : String) : List Route → List Route → Except String (List Route)
  | [], table => .ok table
  | r :: rest, table =>
    if jsToLower r.method ∈ expressRouterMethods then
      mountRoutes leadPath rest
        (table ++ [{ method := r.method, path := leadPath ++ r.path, handler := r.handler }])
    else
      .error ("Unsupported HTTP method " ++ r.method)

/-! ## Service registration and teardown (baseServer.js, service / close) -/

/-- A teardown record pushed onto this.#closeStack: the instance (by id)
and whether its close function will throw when invoked. -/
structure Registration where
  instanceId : Nat
  closeThrows : Bool
deriving DecidableEq

/-- `this.#closeStack.unshift({ instance, closeFunc })`. -/
def registerTeardown (stack : List Registration) (r : Registration) : List Registration :=
  r :: stack

/-- One full pass of BaseServer.close over the close stack: iterate the
stack front to back; each entry gets `await closeFunc.call(instance)`
inside try/catch, so a throwing entry is logged and the loop continues.
Returns (the instances whose close was invoked, in invocation order;
the errors logged by the catch). -/
def closePass (stack : List Registration) : List Nat × List Nat :=
  stack.foldl
    (fun acc r =>
      if r.closeThrows then (acc.1 ++ [r.instanceId], acc.2 ++ [r.instanceId])
      else (acc.1 ++ [r.instanceId], acc.2))
    ([], [])

/-- The SIGINT/SIGTERM handlers installed by initShutdown call
`await this.close()` unconditionally — no flag records that shutdown has
begun and close never empties the stack — so n signal deliveries or
explicit close() calls run n full passes. Returns the concatenated
invocation log. -/
def shutdownInvocations (stack : List Registration) : Nat → List Nat
  | 0 => []
  | n + 1 => (closePass stack).1 ++ shutdownInvocations stack n

/-- A service instance produced by createFunc: its identity, whether it
exposes a connect function, and whether that connect throws. -/
structure ServiceInstance where
  instanceId : Nat
  hasConnect : Bool
  connectThrows : Bool
deriving DecidableEq

/-- The mutable state touched by doCreate: the owner object (server or
tenant) with its named service properties, and the shared close stack. -/
structure BinderState where
  owner : List (String × Nat)
  closeStack : List Registration
deriving DecidableEq

/-- The doCreate closure of BaseServer.service, for one owner:
1. `if (owner[name]) throw` (duplicate property);
2. `instance = await createFunc(config)` (may reject);
3. `if (typeof closeFunc === "function") closeStack.unshift(...)`;
4. `owner[name] = instance`;
5. `if (typeof instance.connect === "function") await instance.connect()`
   (may reject).
`closeBehavior` is none when no closeFunc was supplied, some b when a
closeFunc was supplied whose later invocation throws iff b. Returns the
outcome together with the state as it stands when doCreate returns or
throws — JS mutations before a throw persist. -/
def doCreate (st : BinderState) (name : String)
    (factoryResult : Except String ServiceInstance)
    (closeBehavior : Option Bool) : Except String Unit × BinderState :=
  match mapGet st.owner name with
  | some _ => (.error ("owner already has property " ++ name), st)
  | none =>
    match factoryResult with
    | .error e => (.error e, st)
    | .ok inst =>
      let st1 :=
        match closeBehavior with
        | some b => { st with closeStack := registerTeardown st.closeStack ⟨inst.instanceId, b⟩ }
        | none => st
      let st2 := { st1 with owner := mapSet st1.owner name inst.instanceId }
      if inst.hasConnect && inst.connectThrows then
        (.error "connect failed", st2)
      else
        (.ok (), st2)

/-! ## Per-tenant request metrics (initTenants request middleware) -/

/-- One entry of metrics.routes: `{ count, totalTimeMs }`. Durations are
modelled as naturals. -/
structure RouteStats where
  count : Nat
  totalTimeMs : Nat
deriving DecidableEq

/-- tenant.metrics: `{ totalRequests, totalErrors, routes }` (startTime
carries no claim-relevant information and is omitted). -/
structure Metrics where
  totalRequests : Nat
  totalErrors : Nat
  routes : List (String × RouteStats)
deriving DecidableEq

/-- The metrics object lazily created on first request. -/
def initMetrics : Metrics :=
  { totalRequests := 0, totalErrors := 0, routes := [] }

/-- One request observed to completion at a quiescent point:
`routeStats = metrics.routes[routeKey] ??= { count: 0, totalTimeMs: 0 }`
at dispatch, then on the finish event `totalRequests++`,
`routeStats.count++`, `routeStats.totalTimeMs += duration`, and
`totalErrors++` iff the status code is at least 400. -/
def recordRequest (m : Metrics) (routeKey : String) (statusCode duration : Nat) : Metrics :=
  { totalRequests := m.totalRequests + 1
    totalErrors := if 400 ≤ statusCode then m.totalErrors + 1 else m.totalErrors
    routes := mapSet m.routes routeKey
      ⟨((mapGet m.routes routeKey).getD ⟨0, 0⟩).count + 1,
       ((mapGet m.routes routeKey).getD ⟨0, 0⟩).totalTimeMs + duration⟩ }

/-- A sequence of completed requests, each (routeKey, statusCode,
duration), applied to the freshly initialized metrics object. -/
def runRequests (reqs : List (String × Nat × Nat)) : Metrics :=
  reqs.foldl (fun m r => recordRequest m r.1 r.2.1 r.2.2) initMetrics

/-- The sum of routes[k].count over all route keys. -/
def sumRouteCounts (m : Metrics) : Nat :=
  (m.routes.map (fun p => p.2.count)).sum

/-! ## Association-map lemmas -/

theorem mapGet_mapSet_self {α : Type} (l : List (String × α)) (k : String) (v : α) :
    mapGet (mapSet l k v) k = some v := by
  induction l with
  | nil => simp [mapSet, mapGet]
  | cons p rest ih =>
    by_cases h : p.1 = k
    · simp [mapSet, mapGet, h]
    · simp [mapSet, mapGet, h, ih]

theorem mapGet_mapSet_ne {α : Type} (l : List (String × α)) (k k2 : String) (v : α)
    (h : k2 ≠ k) : mapGet (mapSet l k2 v) k = mapGet l k := by
  induction l with
  | nil => simp [mapSet, mapGet, h]
  | cons p rest ih =>
    simp only [mapSet, mapGet]
    by_cases hp : p.1 = k2
    · rw [if_pos hp]
      have hpk : p.1 ≠ k := fun hh => h (hp.symm.trans hh)
      simp only [mapGet]
      rw [if_neg hpk, if_neg hpk]
    · rw [if_neg hp]
      simp only [mapGet]
      by_cases hpk : p.1 = k
      · rw [if_pos hpk, if_pos hpk]
      · rw [if_neg hpk, if_neg hpk, ih]

/-! ## Tenant-directory lemmas -/

theorem mapGet_foldl_domains (t : Tenant) (ds : List String)
    (m : List (String × Tenant)) (k : String) :
    mapGet (ds.foldl (fun m2 d => mapSet m2 d t) m) k
      = if k ∈ ds then some t else mapGet m k := by
  induction ds generalizing m with
  | nil => simp
  | cons d rest ih =>
    rw [List.foldl_cons, ih]
    by_cases hk : k ∈ rest
    · simp [hk]
    · by_cases hd : k = d
      · subst hd
        simp [hk, mapGet_mapSet_self]
      · have hdk : d ≠ k := fun hh => hd hh.symm
        simp [hk, hd, mapGet_mapSet_ne _ _ _ _ hdk]

theorem mapGet_buildDomainMap_aux (ts : List Tenant)
    (m : List (String × Tenant)) (k : String) :
    mapGet (ts.foldl (fun m2 t => t.domains.foldl (fun m3 d => mapSet m3 d t) m2) m) k
      = match lastDeclaring k ts with
        | some u => some u
        | none => mapGet m k := by
  induction ts generalizing m with
  | nil => simp [lastDeclaring]
  | cons t rest ih =>
    rw [List.foldl_cons, ih]
    cases hld : lastDeclaring k rest with
    | some u => simp [lastDeclaring, hld]
    | none =>
      rw [mapGet_foldl_domains]
      by_cases hk : k ∈ t.domains <;> simp [lastDeclaring, hld, hk]

/-- The domain map built by initTenants binds each domain to the last
tenant, in configuration order, that declares it. -/
theorem mapGet_buildDomainMap (ts : List Tenant) (k : String) :
    mapGet (buildDomainMap ts) k = lastDeclaring k ts := by
  rw [buildDomainMap, mapGet_buildDomainMap_aux]
  cases lastDeclaring k ts <;> simp [mapGet]

theorem lastDeclaring_eq_some (ts : List Tenant) (u : Tenant) (d : String)
    (h : lastDeclaring d ts = some u) : u ∈ ts ∧ d ∈ u.domains := by
  induction ts with
  | nil => simp [lastDeclaring] at h
  | cons a rest ih =>
    rw [lastDeclaring] at h
    cases hld : lastDeclaring d rest with
    | some w =>
      rw [hld] at h
      obtain ⟨hw, hdw⟩ := ih (hld.trans h)
      exact ⟨List.mem_cons_of_mem _ hw, hdw⟩
    | none =>
      rw [hld] at h
      by_cases ha : d ∈ a.domains
      · rw [if_pos ha] at h
        cases h
        exact ⟨List.mem_cons_self _ _, ha⟩
      · rw [if_neg ha] at h
        cases h

theorem lastDeclaring_eq_none (ts : List Tenant) (d : String) :
    lastDeclaring d ts = none ↔ ∀ u ∈ ts, d ∉ u.domains := by
  induction ts with
  | nil => simp [lastDeclaring]
  | cons a rest ih =>
    rw [lastDeclaring]
    cases hld : lastDeclaring d rest with
    | some w =>
      simp only [reduceCtorEq, false_iff]
      obtain ⟨hw, hdw⟩ := lastDeclaring_eq_some rest w d hld
      intro hall
      exact hall w (List.mem_cons_of_mem _ hw) hdw
    | none =>
      by_cases ha : d ∈ a.domains
      · simp only [if_pos ha, reduceCtorEq, false_iff]
        intro hall
        exact hall a (List.mem_cons_self _ _) ha
      · simp only [if_neg ha, true_iff]
        intro u hu
        rcases List.mem_cons.mp hu with h | h
        · subst h; exact ha
        · exact (ih.mp hld) u h

theorem lastDeclaring_of_unique (ts : List Tenant) (t : Tenant) (d : String)
    (ht : t ∈ ts) (hd : d ∈ t.domains)
    (huniq : ∀ u ∈ ts, d ∈ u.domains → u = t) :
    lastDeclaring d ts = some t := by
  induction ts with
  | nil => cases ht
  | cons a rest ih =>
    rw [lastDeclaring]
    cases hld : lastDeclaring d rest with
    | some u =>
      obtain ⟨hu, hdu⟩ := lastDeclaring_eq_some rest u d hld
      rw [huniq u (List.mem_cons_of_mem _ hu) hdu]
    | none =>
      have hrest := (lastDeclaring_eq_none rest d).mp hld
      rcases List.mem_cons.mp ht with h | h
      · subst h; rw [if_pos hd]
      · exact absurd hd (hrest t h)

/-! ## Claim C1 -/

/-- C1 counterexample: two distinct tenant configs both declaring the
single domain "a.com" build successfully — initTenants raises no
duplicate-domain error — and the two built tenants are distinct yet have
overlapping (identical) domain sets, refuting both phrasings of the
claim. -/
theorem C1_counterexample :
    (initTenantList [⟨1, 1, "a.com", []⟩, ⟨2, 1, "a.com", []⟩]).length = 2 ∧
    (∃ t1 ∈ initTenantList [⟨1, 1, "a.com", []⟩, ⟨2, 1, "a.com", []⟩],
      ∃ t2 ∈ initTenantList [⟨1, 1, "a.com", []⟩, ⟨2, 1, "a.com", []⟩],
        t1 ≠ t2 ∧ "a.com" ∈ t1.domains ∧ "a.com" ∈ t2.domains) := by
  decide

/-- C1 (amended): building the tenant directory never fails on a domain
collision — every config yields a tenant, so two distinct built tenants
may share a domain — and the hostname map binds each domain to the last
tenant in configuration order that declares it. -/
theorem C1_duplicate_domains_last_writer_wins (cfgs : List TenantConfig) :
    (initTenantList cfgs).length = cfgs.length ∧
    ∀ d : String,
      mapGet (buildDomainMap (initTenantList cfgs)) d
        = lastDeclaring d (initTenantList cfgs) := by
  refine ⟨?_, fun d => mapGet_buildDomainMap _ d⟩
  simp [initTenantList]

/-! ## Claim C4 -/

/-- C4: for a tenant t that is the unique declarer of domain d in the
built directory, every hostname whose lowercased, trimmed form equals d
resolves to t; and any hostname whose normalized form is declared by no
tenant resolves to none (the middleware then sends the 404 tenant-not-found
response). -/
theorem C4_hostname_resolution (cfgs : List TenantConfig) (t : Tenant) (d h : String)
    (ht : t ∈ initTenantList cfgs) (hd : d ∈ t.domains)
    (huniq : ∀ u ∈ initTenantList cfgs, d ∈ u.domains → u = t)
    (hh : jsTrim (jsToLower h) = d) :
    resolve (buildDomainMap (initTenantList cfgs)) h = some t ∧
    ∀ h2 : String, (∀ u ∈ initTenantList cfgs, jsTrim (jsToLower h2) ∉ u.domains) →
      resolve (buildDomainMap (initTenantList cfgs)) h2 = none := by
  constructor
  · rw [resolve, hh, mapGet_buildDomainMap]
    exact lastDeclaring_of_unique _ t d ht hd huniq
  · intro h2 hnone
    rw [resolve, mapGet_buildDomainMap]
    exact (lastDeclaring_eq_none _ _).mpr hnone

/-- C4 witness: in a directory declaring "example.com" and
"www.example.com" for one tenant, resolving " Example.COM " and
"example.com" both return that tenant, and "unknown.test" resolves to
none. -/
theorem C4_hostname_resolution_witness :
    resolve
      (buildDomainMap (initTenantList [⟨1, 1, "example.com, www.example.com", []⟩]))
      " Example.COM "
      = some ⟨0, 1, 1, ["example.com", "www.example.com"],
          ⟨1, 1, "example.com, www.example.com", []⟩⟩ ∧
    resolve
      (buildDomainMap (initTenantList [⟨1, 1, "example.com, www.example.com", []⟩]))
      "example.com"
      = some ⟨0, 1, 1, ["example.com", "www.example.com"],
          ⟨1, 1, "example.com, www.example.com", []⟩⟩ ∧
    resolve
      (buildDomainMap (initTenantList [⟨1, 1, "example.com, www.example.com", []⟩]))
      "unknown.test"
      = none :=
  ⟨(C4_hostname_resolution [⟨1, 1, "example.com, www.example.com", []⟩]
      ⟨0, 1, 1, ["example.com", "www.example.com"],
        ⟨1, 1, "example.com, www.example.com", []⟩⟩
      "example.com" " Example.COM "
      (by decide) (by decide) (by decide) (by decide)).1,
   (C4_hostname_resolution [⟨1, 1, "example.com, www.example.com", []⟩]
      ⟨0, 1, 1, ["example.com", "www.example.com"],
        ⟨1, 1, "example.com, www.example.com", []⟩⟩
      "example.com" "example.com"
      (by decide) (by decide) (by decide) (by decide)).1,
   (C4_hostname_resolution [⟨1, 1, "example.com, www.example.com", []⟩]
      ⟨0, 1, 1, ["example.com", "www.example.com"],
        ⟨1, 1, "example.com, www.example.com", []⟩⟩
      "example.com" "example.com"
      (by decide) (by decide) (by decide) (by decide)).2
     "unknown.test" (by decide)⟩

/-! ## Teardown and shutdown lemmas -/

theorem closePass_foldl_attempts (stack : List Registration) (acc : List Nat × List Nat) :
    (stack.foldl
      (fun acc r =>
        if r.closeThrows then (acc.1 ++ [r.instanceId], acc.2 ++ [r.instanceId])
        else (acc.1 ++ [r.instanceId], acc.2))
      acc).1
      = acc.1 ++ stack.map (fun r => r.instanceId) := by
  induction stack generalizing acc with
  | nil => simp
  | cons r rest ih =>
    rw [List.foldl_cons]
    cases h : r.closeThrows <;> simp [h, ih]

/-- Every entry of the close stack receives exactly one close attempt per
pass, in stack order, whether or not its close function throws. -/
theorem closePass_attempts (stack : List Registration) :
    (closePass stack).1 = stack.map (fun r => r.instanceId) := by
  rw [closePass, closePass_foldl_attempts]
  simp

theorem foldl_registerTeardown (regs : List Registration) (init : List Registration) :
    regs.foldl registerTeardown init = regs.reverse ++ init := by
  induction regs generalizing init with
  | nil => simp
  | cons r rest ih =>
    rw [List.foldl_cons, ih]
    simp [registerTeardown]

/-! ## Claim C2 -/

/-- C2: registering teardown entries S1, ..., SN in order (each unshifted
onto the close stack) and then running one close pass invokes the close
functions in exactly the reverse order SN, ..., S1; the equality holds for
every assignment of the closeThrows flags, so an entry whose close
function throws never prevents the remaining entries from receiving their
close attempt. -/
theorem C2_close_reverse_order (regs : List Registration) :
    (closePass (regs.foldl registerTeardown [])).1
      = (regs.map (fun r => r.instanceId)).reverse := by
  rw [foldl_registerTeardown, List.append_nil, closePass_attempts, List.map_reverse]

/-! ## Claim C5 -/

/-- C5 counterexample: with a single registered teardown entry (close
function id 1, never throwing), two shutdown invocations — a repeated
termination signal or a repeated explicit close() call — invoke that close
function twice, refuting the claim that no registered close function is
invoked more than once. -/
theorem C5_counterexample :
    shutdownInvocations [⟨1, false⟩] 2 = [1, 1] ∧
    ¬ (shutdownInvocations [⟨1, false⟩] 2).count 1 ≤ 1 := by
  decide

/-- C5 (amended): shutdown is not guarded — initShutdown installs signal
handlers that call close() unconditionally, nothing records that shutdown
has begun, and close() leaves the stack in place — so after n shutdown
invocations every registered close function has been invoked once per
invocation: n times the number of its registrations on the stack. -/
theorem C5_shutdown_runs_once_per_invocation
    (stack : List Registration) (n : Nat) (i : Nat) :
    (shutdownInvocations stack n).count i
      = n * (stack.map (fun r => r.instanceId)).count i := by
  induction n with
  | zero => simp [shutdownInvocations]
  | succ n ih =>
    rw [shutdownInvocations, List.count_append, closePass_attempts, ih,
      Nat.succ_mul, Nat.add_comm]

/-! ## Claim C3 -/

/-- C3: when the owner (the server object or one tenant) already has a
service registered under a key, a second registration under the same key
fails with the duplicate-property error and performs no mutation: the
existing instance of the owner, its other entries and the shared close
stack are all exactly as before the failed call. -/
theorem C3_duplicate_service_registration (st : BinderState) (name : String)
    (factoryResult : Except String ServiceInstance) (closeBehavior : Option Bool)
    (i : Nat) (hdup : mapGet st.owner name = some i) :
    (∃ e, (doCreate st name factoryResult closeBehavior).1 = .error e) ∧
    (doCreate st name factoryResult closeBehavior).2 = st := by
  refine ⟨⟨"owner already has property " ++ name, ?_⟩, ?_⟩ <;>
    simp [doCreate, hdup]

/-- C3 witness: an owner already holding service "db" (instance 1) rejects
a second "db" registration and is left unchanged. -/
theorem C3_duplicate_service_registration_witness :
    (∃ e, (doCreate ⟨[("db", 1)], []⟩ "db" (.ok ⟨2, false, false⟩) (some false)).1
      = .error e) ∧
    (doCreate ⟨[("db", 1)], []⟩ "db" (.ok ⟨2, false, false⟩) (some false)).2
      = ⟨[("db", 1)], []⟩ :=
  C3_duplicate_service_registration ⟨[("db", 1)], []⟩ "db"
    (.ok ⟨2, false, false⟩) (some false) 1 (by decide)

/-! ## Claim C10 -/

/-- C10: when the factory succeeds, a close function was supplied and the
connect() of the instance then throws, the registration call fails — yet the
teardown entry was already unshifted onto the close stack and the instance
already assigned to the owner before connect ran, so those mutations
persist and a subsequent shutdown pass still attempts close on the
never-connected instance. -/
theorem C10_connect_failure_keeps_registration (st : BinderState) (name : String)
    (inst : ServiceInstance) (b : Bool)
    (hfree : mapGet st.owner name = none)
    (hconn : inst.hasConnect = true) (hthrow : inst.connectThrows = true) :
    (∃ e, (doCreate st name (.ok inst) (some b)).1 = .error e) ∧
    (doCreate st name (.ok inst) (some b)).2.closeStack
      = ⟨inst.instanceId, b⟩ :: st.closeStack ∧
    mapGet (doCreate st name (.ok inst) (some b)).2.owner name = some inst.instanceId ∧
    inst.instanceId ∈ (closePass (doCreate st name (.ok inst) (some b)).2.closeStack).1 := by
  refine ⟨⟨"connect failed", ?_⟩, ?_, ?_, ?_⟩ <;>
    simp [doCreate, hfree, hconn, hthrow, registerTeardown, mapGet_mapSet_self,
      closePass_attempts]

/-- C10 witness: on an empty owner, registering "db" with a factory
producing instance 7 whose connect throws fails, yet instance 7 sits on
the close stack, is assigned to the owner, and is attempted by a
subsequent close pass. -/
theorem C10_connect_failure_keeps_registration_witness :
    (∃ e, (doCreate ⟨[], []⟩ "db" (.ok ⟨7, true, true⟩) (some false)).1 = .error e) ∧
    (doCreate ⟨[], []⟩ "db" (.ok ⟨7, true, true⟩) (some false)).2.closeStack
      = [⟨7, false⟩] ∧
    mapGet (doCreate ⟨[], []⟩ "db" (.ok ⟨7, true, true⟩) (some false)).2.owner "db"
      = some 7 ∧
    7 ∈ (closePass (doCreate ⟨[], []⟩ "db" (.ok ⟨7, true, true⟩) (some false)).2.closeStack).1 :=
  C10_connect_failure_keeps_registration ⟨[], []⟩ "db" ⟨7, true, true⟩ false
    (by decide) (by decide) (by decide)

/-! ## Router-mounting lemmas -/

theorem mountRoutes_ok_of_all (leadPath : String) (rs : List Route)
    (table : List Route)
    (hall : ∀ r ∈ rs, jsToLower r.method ∈ expressRouterMethods) :
    mountRoutes leadPath rs table
      = .ok (table ++ rs.map (fun r =>
          { method := r.method, path := leadPath ++ r.path, handler := r.handler })) := by
  induction rs generalizing table with
  | nil => simp [mountRoutes]
  | cons r rest ih =>
    simp only [mountRoutes]
    rw [if_pos (hall r (List.mem_cons_self _ _)),
      ih _ (fun x hx => hall x (List.mem_cons_of_mem _ hx))]
    simp

theorem mountRoutes_isOk_iff (leadPath : String) (rs table : List Route) :
    (∃ t, mountRoutes leadPath rs table = .ok t)
      ↔ ∀ r ∈ rs, jsToLower r.method ∈ expressRouterMethods := by
  induction rs generalizing table with
  | nil => simp [mountRoutes]
  | cons r rest ih =>
    simp only [mountRoutes]
    by_cases h : jsToLower r.method ∈ expressRouterMethods
    · rw [if_pos h, ih]
      constructor
      · intro hrest x hx
        rcases List.mem_cons.mp hx with rfl | hx
        · exact h
        · exact hrest x hx
      · intro hall x hx
        exact hall x (List.mem_cons_of_mem _ hx)
    · rw [if_neg h]
      constructor
      · rintro ⟨t, ht⟩
        exact Except.noConfusion ht
      · intro hall
        exact absurd (hall r (List.mem_cons_self _ _)) h

/-! ## Claim C8 -/

/-- C8: mounting a router whose source yields route triples with supported
methods appends exactly (method, leadPath + path, handler), in source
order, to the flat route table. -/
theorem C8_mount_appends_in_order (leadPath : String) (rs table : List Route)
    (hall : ∀ r ∈ rs, jsToLower r.method ∈ expressRouterMethods) :
    mountRoutes leadPath rs table
      = .ok (table ++ rs.map (fun r =>
          { method := r.method, path := leadPath ++ r.path, handler := r.handler })) :=
  mountRoutes_ok_of_all leadPath rs table hall

/-- C8 witness: mounting "/api" over [(GET, "/users", h1), (POST,
"/users", h2)] yields exactly ("GET", "/api/users", h1) then ("POST",
"/api/users", h2). -/
theorem C8_mount_appends_in_order_witness :
    mountRoutes "/api" [⟨"GET", "/users", 1⟩, ⟨"POST", "/users", 2⟩] []
      = .ok [⟨"GET", "/api/users", 1⟩, ⟨"POST", "/api/users", 2⟩] :=
  (C8_mount_appends_in_order "/api" [⟨"GET", "/users", 1⟩, ⟨"POST", "/users", 2⟩] []
    (by decide)).trans (by decide)

/-! ## Claim C9 -/

/-- C9 counterexample: a route declaring method "HEAD" — an HTTP verb
outside the set {GET, POST, PUT, PATCH, DELETE} — mounts successfully
instead of failing, because the code only checks that the express router
object has a function under the lowercased method name. -/
theorem C9_counterexample :
    mountRoutes "" [⟨"HEAD", "/health", 1⟩] [] = .ok [⟨"HEAD", "/health", 1⟩] ∧
    "HEAD" ∉ ["GET", "POST", "PUT", "PATCH", "DELETE"] := by
  decide

/-- C9 (amended): mounting fails with the unsupported-method error exactly
when some route's lowercased method is not among the method names the
express router exposes as functions (Node http.METHODS plus the router
helpers); the five verbs GET, POST, PUT, PATCH, DELETE are in that set,
but the set is strictly larger — "head" for example is accepted. -/
theorem C9_unsupported_method_iff :
    (∀ (leadPath : String) (rs table : List Route),
      (∃ t, mountRoutes leadPath rs table = .ok t)
        ↔ ∀ r ∈ rs, jsToLower r.method ∈ expressRouterMethods) ∧
    (∀ v ∈ ["get", "post", "put", "patch", "delete"], v ∈ expressRouterMethods) ∧
    "head" ∈ expressRouterMethods ∧
    "head" ∉ ["get", "post", "put", "patch", "delete"] :=
  ⟨mountRoutes_isOk_iff, by decide, by decide, by decide⟩

/-- C9 witness: the iff applied to the concrete single GET route gives a
successful mount. -/
theorem C9_unsupported_method_iff_witness :
    ∃ t, mountRoutes "/api" [⟨"GET", "/users", 1⟩] [] = .ok t :=
  (C9_unsupported_method_iff.1 "/api" [⟨"GET", "/users", 1⟩] []).mpr (by decide)

/-! ## Metrics lemmas -/

theorem sum_mapSet_count (l : List (String × RouteStats)) (k : String) (c tms : Nat) :
    ((mapSet l k ⟨c, tms⟩).map (fun p => p.2.count)).sum
        + ((mapGet l k).getD ⟨0, 0⟩).count
      = (l.map (fun p => p.2.count)).sum + c := by
  induction l with
  | nil => simp [mapSet, mapGet]
  | cons p rest ih =>
    by_cases h : p.1 = k
    · simp only [mapSet, mapGet, if_pos h, List.map_cons, List.sum_cons, Option.getD_some]
      omega
    · simp only [mapSet, mapGet, if_neg h, List.map_cons, List.sum_cons]
      omega

theorem recordRequest_counts (m : Metrics) (k : String) (s d : Nat) :
    sumRouteCounts (recordRequest m k s d) = sumRouteCounts m + 1 ∧
    (recordRequest m k s d).totalRequests = m.totalRequests + 1 := by
  constructor
  · have h := sum_mapSet_count m.routes k
      (((mapGet m.routes k).getD ⟨0, 0⟩).count + 1)
      (((mapGet m.routes k).getD ⟨0, 0⟩).totalTimeMs + d)
    simp only [recordRequest, sumRouteCounts]
    omega
  · simp [recordRequest]

theorem foldl_record_invariant (reqs : List (String × Nat × Nat)) (m : Metrics)
    (hm : sumRouteCounts m = m.totalRequests) :
    sumRouteCounts (reqs.foldl (fun m2 r => recordRequest m2 r.1 r.2.1 r.2.2) m)
      = (reqs.foldl (fun m2 r => recordRequest m2 r.1 r.2.1 r.2.2) m).totalRequests := by
  induction reqs generalizing m with
  | nil => simpa
  | cons r rest ih =>
    rw [List.foldl_cons]
    apply ih
    obtain ⟨h1, h2⟩ := recordRequest_counts m r.1 r.2.1 r.2.2
    rw [h1, h2, hm]

/-! ## Claim C6 -/

/-- C6: after any sequence of completed requests (each recorded once by
the finish callback), the sum of routes[k].count over all route keys
equals totalRequests — the middleware increments the two counters
together, so the invariant holds at every quiescent point. -/
theorem C6_route_counts_sum_to_totalRequests (reqs : List (String × Nat × Nat)) :
    sumRouteCounts (runRequests reqs) = (runRequests reqs).totalRequests := by
  rw [runRequests]
  exact foldl_record_invariant reqs initMetrics (by decide)

/-! ## Locals lemmas -/

theorem buildLocals_foldl_filter (entries : List (String × String))
    (acc : List (String × String)) :
    entries.foldl
      (fun a kv => if jsStartsWith kv.1 "site_" then mapSet a kv.1 kv.2 else a) acc
      = (entries.filter (fun kv => jsStartsWith kv.1 "site_")).foldl
          (fun a kv => mapSet a kv.1 kv.2) acc := by
  induction entries generalizing acc with
  | nil => rfl
  | cons kv rest ih =>
    cases h : jsStartsWith kv.1 "site_" <;>
      simp [List.filter_cons, h, ih]

theorem mapSet_forall_keys {α : Type} (P : String → Prop) (l : List (String × α))
    (k : String) (v : α) (hl : ∀ q ∈ l, P q.1) (hk : P k) :
    ∀ q ∈ mapSet l k v, P q.1 := by
  induction l with
  | nil =>
    intro q hq
    simp only [mapSet, List.mem_singleton] at hq
    subst hq
    exact hk
  | cons p rest ih =>
    intro q hq
    simp only [mapSet] at hq
    by_cases h : p.1 = k
    · rw [if_pos h] at hq
      rcases List.mem_cons.mp hq with rfl | hq
      · exact hl p (List.mem_cons_self _ _)
      · exact hl q (List.mem_cons_of_mem _ hq)
    · rw [if_neg h] at hq
      rcases List.mem_cons.mp hq with rfl | hq
      · exact hl _ (List.mem_cons_self _ _)
      · exact ih (fun x hx => hl x (List.mem_cons_of_mem _ hx)) q hq

theorem foldl_mapSet_keys (P : String → Prop) (l : List (String × String))
    (acc : List (String × String)) (hacc : ∀ q ∈ acc, P q.1)
    (hl : ∀ kv ∈ l, P kv.1) :
    ∀ q ∈ l.foldl (fun a kv => mapSet a kv.1 kv.2) acc, P q.1 := by
  induction l generalizing acc with
  | nil => exact fun q hq => hacc q hq
  | cons kv rest ih =>
    rw [List.foldl_cons]
    exact ih _
      (mapSet_forall_keys P acc kv.1 kv.2 hacc (hl kv (List.mem_cons_self _ _)))
      (fun x hx => hl x (List.mem_cons_of_mem _ hx))

/-! ## Claim C7 -/

/-- C7: the response context res.locals is seeded with exactly the
tenant-config entries whose key begins with "site_": two configs whose
site_-filtered entry lists agree produce identical locals whatever their
other entries (db_url, smtp_password, ...) are, and every entry of the
locals object carries only keys that begin with site_. -/
theorem C7_locals_only_site_entries (e1 e2 : List (String × String))
    (hagree : e1.filter (fun kv => jsStartsWith kv.1 "site_")
      = e2.filter (fun kv => jsStartsWith kv.1 "site_")) :
    buildLocals e1 = buildLocals e2 ∧
    ∀ kv ∈ buildLocals e1, jsStartsWith kv.1 "site_" = true := by
  constructor
  · rw [buildLocals, buildLocals, buildLocals_foldl_filter, buildLocals_foldl_filter,
      hagree]
  · rw [buildLocals, buildLocals_foldl_filter]
    refine foldl_mapSet_keys (fun s => jsStartsWith s "site_" = true)
      (e1.filter (fun kv => jsStartsWith kv.1 "site_")) []
      (fun q hq => absurd hq (List.not_mem_nil q)) ?_
    intro kv hkv
    exact (List.mem_filter.mp hkv).2

/-- C7 witness: two configs agreeing on their site_ entries but with
different db_url and smtp_password values produce the same locals, and
that locals object carries only keys beginning with site_. -/
theorem C7_locals_only_site_entries_witness :
    buildLocals [("site_title", "A"), ("db_url", "mongodb-secret")]
      = buildLocals
          [("site_title", "A"), ("db_url", "other"), ("smtp_password", "x")] ∧
    ∀ kv ∈ buildLocals [("site_title", "A"), ("db_url", "mongodb-secret")],
      jsStartsWith kv.1 "site_" = true :=
  C7_locals_only_site_entries
    [("site_title", "A"), ("db_url", "mongodb-secret")]
    [("site_title", "A"), ("db_url", "other"), ("smtp_password", "x")]
    (by decide)

end ZyxBase

